import Mathlib

/-!
Shallow embedding of the poker hand-flow engine
(`src/components/hand/useHandFlow.ts` and `src/components/hand/types.ts`).

Conventions of the embedding:
* JS numbers that hold chip amounts are modelled as `Int` (the app only ever
  produces integers for blinds, bets and stacks).
* `Record<string, number>` contribution maps are modelled as association
  lists with JS object semantics: reading a missing key yields the `?? 0`
  default used at every read site, writing an existing key updates it in
  place, writing a fresh key appends it.
* JS `Set<string>` values are modelled as duplicate-free lists with
  insertion-order append, matching `new Set(prev).add(x)`.
* The JS falsiness test `if (!actorId)` on a string is true exactly when the
  lookup is out of range (`undefined`) or the id is the empty string; both
  cases are modelled explicitly.
-/

namespace HandFlow

/-- Action kinds accepted by `commitAction` (`ActionType` in the source,
including the `straddle` kind used by `useHandFlow`). -/
inductive ActionType where
  | fold
  | check
  | call
  | bet
  | raise
  | allin
  | straddle
deriving DecidableEq, Repr

/-- The four betting rounds (`Street` in `types.ts`). -/
inductive Street where
  | preflop
  | flop
  | turn
  | river
deriving DecidableEq, Repr

/-- `const STREETS: Street[] = ['preflop', 'flop', 'turn', 'river']`. -/
def STREETS : List Street := [.preflop, .flop, .turn, .river]

/-- Phases of a hand (`HandFlowState.phase` in `types.ts`). -/
inductive Phase where
  | holeCards
  | action
  | boardInput
  | showdown
  | winner
  | done
deriving DecidableEq, Repr

/-- A playing card (`Card` in `types/poker.ts`); rank and suit are kept as
the literal strings of the source. -/
structure Card where
  rank : String
  suit : String
deriving DecidableEq, Repr

/-- One recorded action (`RecordedAction` in `types.ts`). -/
structure RecordedAction where
  playerId : String
  playerLabel : String
  type : ActionType
  amount : Option Int
deriving DecidableEq, Repr

/-- One showdown commit (`ShowdownRecord` in `types.ts`). -/
structure ShowdownRecord where
  playerId : String
  action : String
  cards : Option (Card × Card)
deriving DecidableEq, Repr

/-- A seat (`Player` in `types/poker.ts`; only the fields the engine reads). -/
structure Player where
  id : String
  name : String
  stack : Int
  position : Nat
deriving DecidableEq, Repr

/-- Session configuration (`SessionConfig`; only the fields the engine reads). -/
structure SessionConfig where
  players : List Player
  smallBlind : Int
  bigBlind : Int
deriving DecidableEq, Repr

/-- `const playerIds = players.map((p) => p.id)`. -/
def SessionConfig.playerIds (s : SessionConfig) : List String :=
  s.players.map (·.id)

/-- Per-street action log (`Record<Street, RecordedAction[]>`). -/
structure StreetLog where
  preflop : List RecordedAction
  flop : List RecordedAction
  turn : List RecordedAction
  river : List RecordedAction
deriving DecidableEq, Repr

/-- Read one street's log. -/
def StreetLog.get (l : StreetLog) : Street → List RecordedAction
  | .preflop => l.preflop
  | .flop => l.flop
  | .turn => l.turn
  | .river => l.river

/-- Functional update of one street's log (the spread
`{ ...prev.streets, [street]: ... }`). -/
def StreetLog.set (l : StreetLog) : Street → List RecordedAction → StreetLog
  | .preflop, v => { l with preflop := v }
  | .flop, v => { l with flop := v }
  | .turn, v => { l with turn := v }
  | .river, v => { l with river := v }

/-- `function emptyStreets()`. -/
def emptyStreets : StreetLog :=
  { preflop := [], flop := [], turn := [], river := [] }

/-- Board slots (`Record<'flop'|'turn'|'river', (Card|null)[]>`). -/
structure Boards where
  flop : List (Option Card)
  turn : List (Option Card)
  river : List (Option Card)
deriving DecidableEq, Repr

/-- `function emptyBoards()`. -/
def emptyBoards : Boards :=
  { flop := [none, none, none], turn := [none], river := [none] }

/-- JS object read with the `?? 0` default used at every read site:
`m[k] ?? 0`. -/
def recGet (m : List (String × Int)) (k : String) : Int :=
  match m.find? (fun p => p.1 == k) with
  | some p => p.2
  | none => 0

/-- JS object write `m[k] = v`: update in place when the key exists,
append otherwise. -/
def recSet (m : List (String × Int)) (k : String) (v : Int) : List (String × Int) :=
  if m.any (fun p => p.1 == k) then
    m.map (fun p => if p.1 == k then (k, v) else p)
  else
    m ++ [(k, v)]

/-- `new Set(prev).add(x)` insertion semantics. -/
def setAdd (s : List String) (x : String) : List String :=
  if s.contains x then s else s ++ [x]

/-- The whole hand-flow state (`HandFlowState` in `types.ts`). -/
structure HandFlowState where
  currentStreet : Street
  streets : StreetLog
  boards : Boards
  currentActorIdx : Nat
  foldedIds : List String
  allInIds : List String
  currentBet : Int
  contributions : List (String × Int)
  closingPlayerId : Option String
  pot : Int
  phase : Phase
  holeCards : Option (Card × Card)
  showdownQueue : List String
  showdownRecords : List ShowdownRecord
  winnerId : Option String
deriving DecidableEq, Repr

/-- `export function buildPreflopOrder(playerIds, straddle)`:
2 players → `[BTN, BB]`; with a straddle and more than 3 players →
seats 4.. then seats 0,1,2,3; otherwise seats 3.. then seats 0,1,2. -/
def buildPreflopOrder (playerIds : List String) (straddle : Int) : List String :=
  let count := playerIds.length
  if count = 2 then
    playerIds.take 2
  else if 0 < straddle ∧ 3 < count then
    playerIds.drop 4 ++ playerIds.take 4
  else
    playerIds.drop 3 ++ playerIds.take 3

/-- `export function buildPostflopOrder(playerIds, foldedIds, allInIds?)`:
seats 1.. then seat 0, keeping only un-folded (and, when the set is given,
un-all-in) seats. -/
def buildPostflopOrder (playerIds : List String) (foldedIds : List String)
    (allInIds : Option (List String)) : List String :=
  let keep := fun id => !(foldedIds.contains id) &&
    !(match allInIds with
      | some s => s.contains id
      | none => false)
  (playerIds.drop 1).filter keep ++ (playerIds.take 1).filter keep

/-- The last-aggressor scan of `buildShowdownQueue`: walk the four streets in
chronological order, remembering the most recent un-folded bet/raise/allin
actor. -/
def lastAggressorScan (streets : StreetLog) (foldedIds : List String) : Option String :=
  STREETS.foldl
    (fun acc street =>
      (streets.get street).foldl
        (fun acc2 action =>
          if (action.type == .bet || action.type == .raise || action.type == .allin)
              && !(foldedIds.contains action.playerId) then
            some action.playerId
          else acc2)
        acc)
    none

/-- `function buildShowdownQueue(streets, playerIds, foldedIds)`:
postflop rotation of the un-folded players, rotated so the last aggressor
(when present, truthy and still active) comes first. -/
def buildShowdownQueue (streets : StreetLog) (playerIds foldedIds : List String) :
    List String :=
  let active := buildPostflopOrder playerIds foldedIds none
  if active.length ≤ 1 then active
  else
    match lastAggressorScan streets foldedIds with
    | none => active
    | some lastAggressor =>
      if lastAggressor == "" || !(active.contains lastAggressor) then active
      else
        let idx := active.indexOf lastAggressor
        active.drop idx ++ active.take idx

/-- `const initContributions = ()`: zero for every seat, then the small and
big blinds (with the heads-up rewrite where the button posts the small
blind). -/
def initContributions (session : SessionConfig) : List (String × Int) :=
  let playerIds := session.playerIds
  let c := playerIds.map (fun id => (id, (0 : Int)))
  if 2 ≤ playerIds.length then
    let c := recSet c (playerIds.getD 1 "") session.smallBlind
    let c := recSet c (playerIds.getD (if playerIds.length - 1 < 2 then 0 else 2) "")
      session.bigBlind
    if session.players.length == 2 then
      recSet (recSet c (playerIds.getD 0 "") session.smallBlind) (playerIds.getD 1 "")
        session.bigBlind
    else c
  else c

/-- The initial `useState<HandFlowState>` value of `useHandFlow`. -/
def initialState (session : SessionConfig) : HandFlowState :=
  { currentStreet := .preflop
    streets := emptyStreets
    boards := emptyBoards
    currentActorIdx := 0
    foldedIds := []
    allInIds := []
    currentBet := session.bigBlind
    contributions := initContributions session
    pot := session.smallBlind + session.bigBlind
    phase := .holeCards
    holeCards := none
    showdownQueue := []
    showdownRecords := []
    winnerId := none
    closingPlayerId := (buildPreflopOrder session.playerIds 0).getLast? }

/-- The full mutable state of `useHandFlow`: the `HandFlowState` cell, the
history stack, and the two cells kept outside the snapshot
(`currentStraddle` and `preflopOrder`). -/
structure Engine where
  state : HandFlowState
  history : List HandFlowState
  currentStraddle : Int
  preflopOrder : List String
deriving DecidableEq, Repr

/-- The engine right after `useHandFlow(session)` initialises its cells. -/
def initialEngine (session : SessionConfig) : Engine :=
  { state := initialState session
    history := []
    currentStraddle := 0
    preflopOrder := buildPreflopOrder session.playerIds 0 }

/-- `const activeOrder = (s, order)`: preflop filters the given order by the
folded and all-in sets; postflop rebuilds from `buildPostflopOrder`. -/
def activeOrder (session : SessionConfig) (s : HandFlowState) (order : List String) :
    List String :=
  if s.currentStreet == .preflop then
    order.filter (fun id => !(s.foldedIds.contains id) && !(s.allInIds.contains id))
  else
    buildPostflopOrder session.playerIds s.foldedIds (some s.allInIds)

/-- `const callAmount = (s, playerId)`:
`Math.max(0, s.currentBet - (s.contributions[playerId] ?? 0))`. -/
def callAmount (s : HandFlowState) (playerId : String) : Int :=
  max 0 (s.currentBet - recGet s.contributions playerId)

/-- `players[players.findIndex((p) => p.id === actorId)]?.name ?? actorId`. -/
def playerLabelOf (session : SessionConfig) (actorId : String) : String :=
  match session.players.find? (fun p => p.id == actorId) with
  | some p => p.name
  | none => actorId

/-- `players.find((p) => p.id === actorId)?.stack ?? 0`. -/
def playerStackOf (session : SessionConfig) (actorId : String) : Int :=
  match session.players.find? (fun p => p.id == actorId) with
  | some p => p.stack
  | none => 0

/-- `const resolveStreetEnd = (newState, currentStreet)`: winner phase when at
most one live player remains, showdown after the river, otherwise board
input for the next street with contributions, bet and closing player
reset. -/
def resolveStreetEnd (session : SessionConfig) (newState : HandFlowState)
    (currentStreet : Street) : HandFlowState :=
  let playerIds := session.playerIds
  let activePlayers := playerIds.filter (fun id => !(newState.foldedIds.contains id))
  if activePlayers.length ≤ 1 then
    { newState with phase := .winner, showdownQueue := [], showdownRecords := [] }
  else
    let nextStreetIdx := STREETS.indexOf currentStreet + 1
    if STREETS.length ≤ nextStreetIdx then
      let queue := buildShowdownQueue newState.streets playerIds newState.foldedIds
      { newState with phase := .showdown, showdownQueue := queue, showdownRecords := [] }
    else
      let nextStreet := STREETS.getD nextStreetIdx .preflop
      { newState with
        phase := .boardInput
        currentStreet := nextStreet
        currentActorIdx := 0
        currentBet := 0
        contributions := playerIds.map (fun id => (id, (0 : Int)))
        closingPlayerId := none }

/-- The five accumulator variables of the `commitAction` body (`newFolded`,
`newAllIn`, `newContributions`, `newBet`, `newPot`) after the per-kind
update block. -/
structure ActionEffects where
  newFolded : List String
  newAllIn : List String
  newContributions : List (String × Int)
  newBet : Int
  newPot : Int
deriving DecidableEq, Repr

/-- The per-kind financial block of `commitAction` (fold / call / bet /
raise / allin; check updates nothing). -/
def financialStep (session : SessionConfig) (prev : HandFlowState)
    (type : ActionType) (amount : Option Int) (actorId : String) : ActionEffects :=
  let eff : ActionEffects :=
    { newFolded := prev.foldedIds
      newAllIn := prev.allInIds
      newContributions := prev.contributions
      newBet := prev.currentBet
      newPot := prev.pot }
  match type with
  | .fold => { eff with newFolded := setAdd prev.foldedIds actorId }
  | .call =>
      let toCall := callAmount prev actorId
      { eff with
        newContributions := recSet prev.contributions actorId prev.currentBet
        newPot := prev.pot + toCall }
  | .bet | .raise =>
      let total := amount.getD prev.currentBet
      let added := total - recGet prev.contributions actorId
      { eff with
        newContributions := recSet prev.contributions actorId total
        newBet := total
        newPot := prev.pot + added }
  | .allin =>
      let playerStack := playerStackOf session actorId
      let fallback := if 0 < playerStack then playerStack else prev.currentBet
      let total := match amount with
        | some a => if 0 < a then a else fallback
        | none => fallback
      let added := max 0 (total - recGet prev.contributions actorId)
      { eff with
        newContributions := recSet prev.contributions actorId total
        newBet := if prev.currentBet < total then total else prev.currentBet
        newPot := prev.pot + added
        newAllIn := setAdd prev.allInIds actorId }
  | _ => eff

/-- The `closingPlayerId` update block of `commitAction` (aggressor's
rotation predecessor after bet/raise/allin, recomputed tail when the
closing player folds out of the rotation). -/
def computeClosing (prev : HandFlowState) (type : ActionType) (actorId : String)
    (order newOrder : List String) : Option String :=
  if type == .bet || type == .raise || type == .allin then
    if newOrder.contains actorId then
      let betterIdx := newOrder.indexOf actorId
      let prevIdx := (betterIdx + newOrder.length - 1) % newOrder.length
      newOrder.get? prevIdx
    else
      let prevOrder := order
      if prevOrder.contains actorId && prevOrder.length > 1 then
        let actorInPrevIdx := prevOrder.indexOf actorId
        let prevIdx := (actorInPrevIdx + prevOrder.length - 1) % prevOrder.length
        match prevOrder.get? prevIdx with
        | some candidate =>
            if candidate != "" && newOrder.contains candidate then some candidate
            else newOrder.getLast?
        | none => newOrder.getLast?
      else newOrder.getLast?
  else if type == .fold && prev.closingPlayerId.isSome then
    match prev.closingPlayerId with
    | some cp => if !(newOrder.contains cp) then newOrder.getLast? else some cp
    | none => none
  else prev.closingPlayerId

/-- The street-end decision block of `commitAction`. The `allSquared` read
`newContributions[id] >= newBet` uses the raw (defaultless) object read of
the source: a missing key compares as false. -/
def computeStreetOver (prev : HandFlowState) (type : ActionType) (actorId : String)
    (newOrder activePlayers actionablePlayers : List String)
    (newAllIn : List String) (newContributions : List (String × Int)) (newBet : Int)
    (newClosingPlayerId : Option String) : Bool :=
  let rawIdx := if type == .fold || type == .allin then prev.currentActorIdx
    else prev.currentActorIdx + 1
  let lappedEnd : Bool := decide (newOrder.length ≤ rawIdx)
  let allSquared := activePlayers.all (fun id =>
    newAllIn.contains id ||
      (match newContributions.find? (fun p => p.1 == id) with
       | some p => decide (newBet ≤ p.2)
       | none => false))
  if activePlayers.length ≤ 1 then true
  else if actionablePlayers.length == 0 then true
  else if newBet == 0 then lappedEnd
  else if type == .bet || type == .raise then
    let afterBetRaw := if newOrder.contains actorId then newOrder.indexOf actorId + 1
      else newOrder.length
    decide (newOrder.length ≤ afterBetRaw) && allSquared
  else if type == .allin then newOrder.length == 0
  else
    match newClosingPlayerId with
    | some ncp =>
        let closingPlayerFolded := type == .fold && prev.closingPlayerId != some ncp
        if closingPlayerFolded then lappedEnd && allSquared
        else (actorId == ncp) && allSquared
    | none => lappedEnd && allSquared

/-- The recomputed post-action order of `commitAction` (`newOrder` in the
source): preflop filters the preflop order, postflop rebuilds, both against
the post-action folded/all-in sets. -/
def commitNewOrder (session : SessionConfig) (preflopOrder : List String)
    (prev : HandFlowState) (eff : ActionEffects) : List String :=
  if prev.currentStreet == .preflop then
    preflopOrder.filter (fun id =>
      !(eff.newFolded.contains id) && !(eff.newAllIn.contains id))
  else
    buildPostflopOrder session.playerIds eff.newFolded (some eff.newAllIn)

/-- The `newState` local of `commitAction`: the state after recording the
action and applying the financial, index and closing-player updates but
before the street-end transition. -/
def commitActionPre (session : SessionConfig) (preflopOrder : List String)
    (prev : HandFlowState) (type : ActionType) (amount : Option Int)
    (actorId : String) : HandFlowState :=
  let order := activeOrder session prev preflopOrder
  let recorded : RecordedAction :=
    { playerId := actorId, playerLabel := playerLabelOf session actorId,
      type := type, amount := amount }
  let newStreets := prev.streets.set prev.currentStreet
    (prev.streets.get prev.currentStreet ++ [recorded])
  let eff := financialStep session prev type amount actorId
  let newOrder := commitNewOrder session preflopOrder prev eff
  let newActorIdx :=
    if type == .fold || type == .allin then
      if 0 < newOrder.length then prev.currentActorIdx % newOrder.length else 0
    else
      (prev.currentActorIdx + 1) % max newOrder.length 1
  let newClosingPlayerId := computeClosing prev type actorId order newOrder
  { prev with
    streets := newStreets
    foldedIds := eff.newFolded
    allInIds := eff.newAllIn
    contributions := eff.newContributions
    currentBet := eff.newBet
    pot := eff.newPot
    currentActorIdx := newActorIdx
    closingPlayerId := newClosingPlayerId
    phase := .action }

/-- The `streetOver` local of `commitAction`. -/
def commitActionStreetOver (session : SessionConfig) (preflopOrder : List String)
    (prev : HandFlowState) (type : ActionType) (amount : Option Int)
    (actorId : String) : Bool :=
  let order := activeOrder session prev preflopOrder
  let eff := financialStep session prev type amount actorId
  let activePlayers := session.playerIds.filter (fun id => !(eff.newFolded.contains id))
  let newOrder := commitNewOrder session preflopOrder prev eff
  let newClosingPlayerId := computeClosing prev type actorId order newOrder
  let actionablePlayers := activePlayers.filter (fun id => !(eff.newAllIn.contains id))
  computeStreetOver prev type actorId newOrder activePlayers actionablePlayers
    eff.newAllIn eff.newContributions eff.newBet newClosingPlayerId

/-- The `setState` updater of `commitAction` for every kind except
`straddle`: identify the actor (no-op when none), build `newState`, decide
street end. -/
def commitActionState (session : SessionConfig) (preflopOrder : List String)
    (prev : HandFlowState) (type : ActionType) (amount : Option Int) : HandFlowState :=
  let order := activeOrder session prev preflopOrder
  match order.get? prev.currentActorIdx with
  | none => prev
  | some actorId =>
    if actorId == "" then prev
    else if commitActionStreetOver session preflopOrder prev type amount actorId then
      resolveStreetEnd session (commitActionPre session preflopOrder prev type amount actorId)
        prev.currentStreet
    else
      commitActionPre session preflopOrder prev type amount actorId

/-- Result of the `straddle` branch of `commitAction`: the updated state plus
the two cells kept outside the snapshot (`currentStraddle` and
`preflopOrder`). -/
structure StraddleResult where
  state : HandFlowState
  currentStraddle : Int
  preflopOrder : List String
deriving DecidableEq, Repr

/-- The `straddle` branch of `commitAction`: a forced raise to twice the
current bet, re-deriving the preflop order so the straddler acts last and
becomes the closing player. -/
def commitStraddleState (session : SessionConfig) (preflopOrder : List String)
    (currentStraddle : Int) (prev : HandFlowState) : StraddleResult :=
  let straddleAmount := prev.currentBet * 2
  let order := activeOrder session prev preflopOrder
  match order.get? prev.currentActorIdx with
  | none =>
    { state := prev, currentStraddle := currentStraddle, preflopOrder := preflopOrder }
  | some actorId =>
    if actorId == "" then
      { state := prev, currentStraddle := currentStraddle, preflopOrder := preflopOrder }
    else
      let recorded : RecordedAction :=
        { playerId := actorId, playerLabel := playerLabelOf session actorId,
          type := .straddle, amount := some straddleAmount }
      let newStreets := { prev.streets with preflop := prev.streets.preflop ++ [recorded] }
      let prevContrib := recGet prev.contributions actorId
      let added := straddleAmount - prevContrib
      let newContributions := recSet prev.contributions actorId straddleAmount
      let newPot := prev.pot + (if 0 < added then added else 0)
      let newOrder :=
        if preflopOrder.contains actorId then
          preflopOrder.drop (preflopOrder.indexOf actorId + 1) ++
            preflopOrder.take (preflopOrder.indexOf actorId) ++ [actorId]
        else preflopOrder
      let newActiveOrder := newOrder.filter (fun id =>
        !(prev.foldedIds.contains id) && !(prev.allInIds.contains id))
      let newClosingPlayerId := newActiveOrder.getLast?
      { state :=
          { prev with
            streets := newStreets
            contributions := newContributions
            currentBet := straddleAmount
            pot := newPot
            currentActorIdx := 0
            closingPlayerId := newClosingPlayerId
            phase := .action }
        currentStraddle := straddleAmount
        preflopOrder := newOrder }

/-- `commitAction(type, amount?)` on the whole engine: the straddle branch
also updates the straddle cell and the preflop order; every branch pushes
the prior state onto the history stack. -/
def commitAction (session : SessionConfig) (e : Engine) (type : ActionType)
    (amount : Option Int) : Engine :=
  if type == .straddle then
    let r := commitStraddleState session e.preflopOrder e.currentStraddle e.state
    { state := r.state
      history := e.history ++ [e.state]
      currentStraddle := r.currentStraddle
      preflopOrder := r.preflopOrder }
  else
    { e with
      state := commitActionState session e.preflopOrder e.state type amount
      history := e.history ++ [e.state] }

/-- `confirmHoleCards(card1, card2)`: push history, set the hole cards and
enter the action phase. -/
def confirmHoleCards (e : Engine) (card1 card2 : Card) : Engine :=
  { e with
    history := e.history ++ [e.state]
    state := { e.state with holeCards := some (card1, card2), phase := .action } }

/-- `goBack()`: pop the latest snapshot (if any) and make it the live state;
the straddle cell and the preflop order are untouched. -/
def goBack (e : Engine) : Engine :=
  match e.history.getLast? with
  | none => e
  | some prevState => { e with state := prevState, history := e.history.dropLast }

/-- The `canStraddle` view computed by `useHandFlow`: preflop action phase,
at least four seats, no non-straddle action yet, and the straddle-eligible
actor is up. -/
def canStraddle (session : SessionConfig) (e : Engine) : Bool :=
  if e.state.currentStreet != .preflop then false
  else if e.state.phase != .action then false
  else if session.players.length < 4 then false
  else
    let preflopActions := e.state.streets.preflop
    if preflopActions.any (fun a => a.type != .straddle) then false
    else
      let currentAO := activeOrder session e.state e.preflopOrder
      match currentAO.get? e.state.currentActorIdx with
      | none => false
      | some currentActorInOrder =>
        if currentActorInOrder == "" then false
        else
          let straddleCount := (preflopActions.filter (fun a => a.type == .straddle)).length
          if straddleCount == 0 then currentActorInOrder == session.playerIds.getD 3 ""
          else e.state.currentActorIdx == 0

/-! ## Concrete fixtures (mirroring the repository's test sessions) -/

/-- The seat id of the big blind: seat index 1 heads-up, seat index 2
otherwise. -/
def bigBlindId (playerIds : List String) : String :=
  if playerIds.length = 2 then playerIds.getD 1 "" else playerIds.getD 2 ""

/-- A three-seat session `[BTN, SB, BB]` with blinds 5/10. -/
def session3 : SessionConfig :=
  { players := [
      { id := "btn", name := "BTN", stack := 1000, position := 0 },
      { id := "sb", name := "SB", stack := 1000, position := 1 },
      { id := "bb", name := "BB", stack := 1000, position := 2 }],
    smallBlind := 5, bigBlind := 10 }

/-- A four-seat session `[BTN, SB, BB, UTG]` with blinds 5/10. -/
def session4 : SessionConfig :=
  { players := [
      { id := "btn", name := "BTN", stack := 1000, position := 0 },
      { id := "sb", name := "SB", stack := 1000, position := 1 },
      { id := "bb", name := "BB", stack := 1000, position := 2 },
      { id := "utg", name := "UTG", stack := 1000, position := 3 }],
    smallBlind := 5, bigBlind := 10 }

/-- A six-seat session `[BTN, SB, BB, UTG, HJ, CO]` with blinds 5/10. -/
def session6 : SessionConfig :=
  { players := [
      { id := "btn", name := "BTN", stack := 1000, position := 0 },
      { id := "sb", name := "SB", stack := 1000, position := 1 },
      { id := "bb", name := "BB", stack := 1000, position := 2 },
      { id := "utg", name := "UTG", stack := 1000, position := 3 },
      { id := "hj", name := "HJ", stack := 1000, position := 4 },
      { id := "co", name := "CO", stack := 1000, position := 5 }],
    smallBlind := 5, bigBlind := 10 }

/-- A fixed hole-card pair used to enter the action phase in the concrete
scenarios. -/
def fixtureAh : Card := { rank := "A", suit := "h" }

/-- Second fixed hole card. -/
def fixtureKh : Card := { rank := "K", suit := "h" }

/-- Three-seat engine at the start of preflop action. -/
def engine3 : Engine :=
  confirmHoleCards (initialEngine session3) fixtureAh fixtureKh

/-- Four-seat engine at the start of preflop action. -/
def engine4 : Engine :=
  confirmHoleCards (initialEngine session4) fixtureAh fixtureKh

/-- Six-seat engine at the start of preflop action. -/
def engine6 : Engine :=
  confirmHoleCards (initialEngine session6) fixtureAh fixtureKh

/-- Six-seat preflop line: UTG moves all-in (amount unspecified, so the
1000-chip stack is used), then HJ, CO, BTN and SB fold in turn. -/
def sixAfterFourFolds : Engine :=
  commitAction session6
    (commitAction session6
      (commitAction session6
        (commitAction session6
          (commitAction session6 engine6 .allin none)
          .fold none)
        .fold none)
      .fold none)
    .fold none

/-- Driver for a sequence of external `commitAction` calls, used to express
"thereafter, for the rest of the hand" properties. -/
def runActions (session : SessionConfig) (e : Engine)
    (acts : List (ActionType × Option Int)) : Engine :=
  acts.foldl (fun acc ta => commitAction session acc ta.1 ta.2) e

/-- Three-seat engine after BTN (first to act preflop) calls. -/
def btnCalled3 : Engine := commitAction session3 engine3 .call none

/-- Four-seat engine after UTG (first to act preflop) calls: a voluntary
action has happened, so a straddle is no longer legal for the UI. -/
def utgCalled4 : Engine := commitAction session4 engine4 .call none

/-- Three-seat engine whose acting index points past the end of the active
order, so no current actor is defined. -/
def noActorEngine : Engine :=
  { engine3 with state := { engine3.state with currentActorIdx := 5 } }

/-- River action log of the spec's showdown example: SB bets 20, BB and BTN
call. -/
def riverLog3 : StreetLog :=
  { preflop := [], flop := [], turn := [],
    river := [
      { playerId := "sb", playerLabel := "SB", type := .bet, amount := some 20 },
      { playerId := "bb", playerLabel := "BB", type := .call, amount := none },
      { playerId := "btn", playerLabel := "BTN", type := .call, amount := none }] }

/-- A three-seat state at the end of river action for the spec's showdown
example. -/
def riverState3 : HandFlowState :=
  { currentStreet := .river
    streets := riverLog3
    boards := emptyBoards
    currentActorIdx := 0
    foldedIds := []
    allInIds := []
    currentBet := 20
    contributions := [("btn", 20), ("sb", 20), ("bb", 20)]
    closingPlayerId := some "sb"
    pot := 90
    phase := .action
    holeCards := none
    showdownQueue := []
    showdownRecords := []
    winnerId := none }

/-! ## General lemmas about the engine -/

/-- Every branch of `commitAction` pushes the prior live state onto the
history stack. -/
theorem commitAction_history (session : SessionConfig) (e : Engine)
    (type : ActionType) (amount : Option Int) :
    (commitAction session e type amount).history = e.history ++ [e.state] := by
  unfold commitAction
  by_cases h : type == .straddle <;> simp [h]

/-- `goBack` right after `commitAction` restores the whole pre-action
`HandFlowState`. -/
theorem goBack_commitAction_state (session : SessionConfig) (e : Engine)
    (type : ActionType) (amount : Option Int) :
    (goBack (commitAction session e type amount)).state = e.state := by
  unfold goBack
  rw [commitAction_history]
  simp

/-- Scanning a `recSet`-style in-place update for the written key finds the
written pair exactly when the key was present. -/
theorem find?_recSetMap (m : List (String × Int)) (k : String) (v : Int) :
    (m.map (fun p => if p.1 == k then (k, v) else p)).find? (fun p => p.1 == k) =
      if m.any (fun p => p.1 == k) then some (k, v) else none := by
  induction m with
  | nil => rfl
  | cons p t ih =>
    rw [List.map_cons]
    by_cases hp : (p.1 == k) = true
    · rw [if_pos hp]
      simp only [List.find?_cons, List.any_cons, hp]
      simp
    · have hf : (p.1 == k) = false := by
        cases hh : (p.1 == k) with
        | true => exact absurd hh hp
        | false => rfl
      rw [if_neg hp]
      simp only [List.find?_cons, List.any_cons, hf, ih, Bool.false_or]

/-- Reading back the key just written by `recSet`. -/
theorem recGet_recSet_self (m : List (String × Int)) (k : String) (v : Int) :
    recGet (recSet m k v) k = v := by
  unfold recSet recGet
  by_cases h : m.any (fun p => p.1 == k)
  · rw [if_pos h, find?_recSetMap, if_pos h]
  · have hnone : m.find? (fun p => p.1 == k) = none := by
      rw [List.find?_eq_none]
      intro x hx hbeq
      exact h (List.any_eq_true.mpr ⟨x, hx, hbeq⟩)
    rw [if_neg h, List.find?_append, hnone]
    simp

/-- Full characterization of the straddle branch when the first entry of the
preflop order is due to act and nobody has folded or gone all-in. -/
theorem commitStraddleState_spec (session : SessionConfig) (cs : Int)
    (s : HandFlowState) (a : String) (rest : List String)
    (h1 : s.currentStreet = .preflop) (h2 : s.foldedIds = [])
    (h3 : s.allInIds = []) (h4 : s.currentActorIdx = 0) (h6 : a ≠ "") :
    commitStraddleState session (a :: rest) cs s =
      { state :=
          { s with
            streets := { s.streets with preflop := s.streets.preflop ++
              [{ playerId := a, playerLabel := playerLabelOf session a,
                 type := .straddle, amount := some (s.currentBet * 2) }] }
            contributions := recSet s.contributions a (s.currentBet * 2)
            currentBet := s.currentBet * 2
            pot := s.pot + (if 0 < s.currentBet * 2 - recGet s.contributions a
              then s.currentBet * 2 - recGet s.contributions a else 0)
            currentActorIdx := 0
            closingPlayerId := some a
            phase := .action }
        currentStraddle := s.currentBet * 2
        preflopOrder := rest ++ [a] } := by
  have horder : activeOrder session s (a :: rest) = a :: rest := by
    simp [activeOrder, h1, h2, h3]
  have hbeq : (a == "") = false := by
    cases hh : (a == "") with
    | true => exact absurd (by simpa using hh) h6
    | false => rfl
  unfold commitStraddleState
  rw [horder, h4]
  simp only [List.get?, hbeq, Bool.false_eq_true, if_false]
  simp [h2, h3, List.getLast?_concat]

/-- `goBack` never touches the preflop-order cell. -/
theorem goBack_preflopOrder (e : Engine) : (goBack e).preflopOrder = e.preflopOrder := by
  unfold goBack
  cases e.history.getLast? <;> rfl

/-- `goBack` never touches the straddle cell. -/
theorem goBack_currentStraddle (e : Engine) :
    (goBack e).currentStraddle = e.currentStraddle := by
  unfold goBack
  cases e.history.getLast? <;> rfl

/-- `commitAction` with kind `straddle` routes through the straddle branch. -/
theorem commitAction_straddle_eq (session : SessionConfig) (e : Engine)
    (amount : Option Int) :
    commitAction session e .straddle amount =
      { state := (commitStraddleState session e.preflopOrder e.currentStraddle e.state).state
        history := e.history ++ [e.state]
        currentStraddle :=
          (commitStraddleState session e.preflopOrder e.currentStraddle e.state).currentStraddle
        preflopOrder :=
          (commitStraddleState session e.preflopOrder e.currentStraddle e.state).preflopOrder } := by
  simp [commitAction]

/-- A nonempty string is not `BEq`-equal to the empty string. -/
theorem beq_empty_false_of_ne (a : String) (h : a ≠ "") : (a == "") = false := by
  cases hh : (a == "") with
  | true => exact absurd (by simpa using hh) h
  | false => rfl

/-- The street-end transition keeps pot, folded and all-in sets, and keeps
contributions and bet level except in its board-input branch. -/
theorem resolveStreetEnd_keeps (session : SessionConfig) (ns : HandFlowState)
    (st : Street) :
    (resolveStreetEnd session ns st).pot = ns.pot ∧
    (resolveStreetEnd session ns st).foldedIds = ns.foldedIds ∧
    (resolveStreetEnd session ns st).allInIds = ns.allInIds ∧
    ((resolveStreetEnd session ns st).phase ≠ .boardInput →
      (resolveStreetEnd session ns st).contributions = ns.contributions ∧
      (resolveStreetEnd session ns st).currentBet = ns.currentBet) := by
  by_cases h1 :
      (List.filter (fun id => !decide (id ∈ ns.foldedIds)) session.playerIds).length ≤ 1
  · simp [resolveStreetEnd, h1]
  · by_cases h2 : STREETS.length ≤ List.indexOf st STREETS + 1
    · simp [resolveStreetEnd, h1, h2]
    · simp [resolveStreetEnd, h1, h2]

/-- When an actor is defined (and truthy), `commitActionState` is the
`newState` value, street-end-resolved if the street is over. -/
theorem commitActionState_of_actor (session : SessionConfig)
    (preOrder : List String) (prev : HandFlowState) (type : ActionType)
    (amount : Option Int) (a : String)
    (ha : (activeOrder session prev preOrder).get? prev.currentActorIdx = some a)
    (hne : a ≠ "") :
    commitActionState session preOrder prev type amount =
      if commitActionStreetOver session preOrder prev type amount a then
        resolveStreetEnd session (commitActionPre session preOrder prev type amount a)
          prev.currentStreet
      else
        commitActionPre session preOrder prev type amount a := by
  unfold commitActionState
  simp only [ha, beq_empty_false_of_ne a hne, Bool.false_eq_true, if_false]

/-- `setAdd` keeps old members. -/
theorem mem_setAdd_of_mem (s : List String) (x a : String) (h : a ∈ s) :
    a ∈ setAdd s x := by
  unfold setAdd
  split
  · exact h
  · exact List.mem_append_left _ h

/-- `setAdd` contains the freshly added element. -/
theorem mem_setAdd_self (s : List String) (a : String) : a ∈ setAdd s a := by
  unfold setAdd
  split
  · next hc => simpa using hc
  · exact List.mem_append_right _ (by simp)

/-- Any action order computed by `activeOrder` excludes every member of the
all-in set (preflop by filtering, postflop via `buildPostflopOrder`). -/
theorem not_mem_activeOrder_of_allIn (session : SessionConfig) (s : HandFlowState)
    (o : List String) (a : String) (h : a ∈ s.allInIds) :
    a ∉ activeOrder session s o := by
  unfold activeOrder
  split
  · intro hmem
    have hp := (List.mem_filter.mp hmem).2
    simp at hp
    exact hp.2 h
  · intro hmem
    unfold buildPostflopOrder at hmem
    rcases List.mem_append.mp hmem with hm | hm <;>
    · have hp := (List.mem_filter.mp hm).2
      simp at hp
      exact hp.2 h

/-- The financial block never removes anyone from the all-in set. -/
theorem financialStep_allIn_mono (session : SessionConfig) (prev : HandFlowState)
    (type : ActionType) (amount : Option Int) (x a : String)
    (h : a ∈ prev.allInIds) :
    a ∈ (financialStep session prev type amount x).newAllIn := by
  cases type <;> simp [financialStep] <;> first
    | exact h
    | exact mem_setAdd_of_mem _ _ _ h

/-- Non-straddle commits never remove anyone from the all-in set. -/
theorem commitActionState_allIn_mono (session : SessionConfig)
    (preOrder : List String) (prev : HandFlowState) (type : ActionType)
    (amount : Option Int) (a : String) (h : a ∈ prev.allInIds) :
    a ∈ (commitActionState session preOrder prev type amount).allInIds := by
  unfold commitActionState
  cases hg : (activeOrder session prev preOrder).get? prev.currentActorIdx with
  | none => simp only [hg]; exact h
  | some actorId =>
    simp only [hg]
    by_cases hb : (actorId == "") = true
    · simp only [hb, if_true]
      exact h
    · have hbf : (actorId == "") = false := by
        cases hh : (actorId == "") with
        | true => exact absurd hh hb
        | false => rfl
      simp only [hbf, Bool.false_eq_true, if_false]
      have hpre : a ∈ (commitActionPre session preOrder prev type amount actorId).allInIds :=
        financialStep_allIn_mono session prev type amount actorId a h
      by_cases hso : commitActionStreetOver session preOrder prev type amount actorId = true
      · rw [if_pos hso]
        rw [(resolveStreetEnd_keeps session
          (commitActionPre session preOrder prev type amount actorId)
          prev.currentStreet).2.2.1]
        exact hpre
      · rw [if_neg hso]
        exact hpre

/-- The straddle branch never touches the all-in set. -/
theorem commitStraddleState_allInIds (session : SessionConfig) (o : List String)
    (cs : Int) (prev : HandFlowState) :
    (commitStraddleState session o cs prev).state.allInIds = prev.allInIds := by
  unfold commitStraddleState
  cases hg : (activeOrder session prev o).get? prev.currentActorIdx with
  | none => simp only [hg]
  | some actorId =>
    simp only [hg]
    by_cases hb : (actorId == "") = true
    · simp only [hb, if_true]
    · have hbf : (actorId == "") = false := by
        cases hh : (actorId == "") with
        | true => exact absurd hh hb
        | false => rfl
      simp only [hbf, Bool.false_eq_true, if_false]

/-- `commitAction` never removes anyone from the all-in set. -/
theorem commitAction_allIn_mono (session : SessionConfig) (e : Engine)
    (type : ActionType) (amount : Option Int) (a : String)
    (h : a ∈ e.state.allInIds) :
    a ∈ (commitAction session e type amount).state.allInIds := by
  unfold commitAction
  by_cases hs : (type == ActionType.straddle) = true
  · simp only [hs, if_true]
    rw [commitStraddleState_allInIds]
    exact h
  · simp only [hs, Bool.false_eq_true, if_false]
    exact commitActionState_allIn_mono session e.preflopOrder e.state type amount a h

/-- The financial block never decreases the pot, except possibly for a
bet/raise whose target is below the actor's previous contribution. -/
theorem financialStep_pot_mono (session : SessionConfig) (prev : HandFlowState)
    (type : ActionType) (amount : Option Int) (x : String)
    (h : type = .bet ∨ type = .raise →
      recGet prev.contributions x ≤ amount.getD prev.currentBet) :
    prev.pot ≤ (financialStep session prev type amount x).newPot := by
  cases type with
  | fold => exact le_refl _
  | check => exact le_refl _
  | straddle => exact le_refl _
  | call =>
    have h0 : 0 ≤ callAmount prev x := le_max_left 0 _
    show prev.pot ≤ prev.pot + callAmount prev x
    omega
  | allin =>
    have hmax : ∀ (X : Int), prev.pot ≤ prev.pot + max 0 X := by
      intro X
      have := le_max_left 0 X
      omega
    exact hmax _
  | bet =>
    have hle := h (Or.inl rfl)
    show prev.pot ≤ prev.pot + (amount.getD prev.currentBet - recGet prev.contributions x)
    omega
  | raise =>
    have hle := h (Or.inr rfl)
    show prev.pot ≤ prev.pot + (amount.getD prev.currentBet - recGet prev.contributions x)
    omega

/-- The straddle branch never decreases the pot (it adds
`max(0, straddle − previous contribution)`). -/
theorem commitStraddleState_pot_mono (session : SessionConfig) (o : List String)
    (cs : Int) (prev : HandFlowState) :
    prev.pot ≤ (commitStraddleState session o cs prev).state.pot := by
  unfold commitStraddleState
  cases hg : (activeOrder session prev o).get? prev.currentActorIdx with
  | none => simp only [hg]; exact le_refl _
  | some actorId =>
    simp only [hg]
    by_cases hb : (actorId == "") = true
    · simp only [hb, if_true]
      exact le_refl _
    · have hbf : (actorId == "") = false := by
        cases hh : (actorId == "") with
        | true => exact absurd hh hb
        | false => rfl
      simp only [hbf, Bool.false_eq_true, if_false]
      have key : ∀ (X : Int), prev.pot ≤ prev.pot + (if 0 < X then X else 0) := by
        intro X
        split <;> omega
      exact key _

/-- No sequence of subsequent `commitAction` calls removes a player from
the all-in set. -/
theorem runActions_allIn_mono (session : SessionConfig) (e : Engine)
    (acts : List (ActionType × Option Int)) (a : String) (h : a ∈ e.state.allInIds) :
    a ∈ (runActions session e acts).state.allInIds := by
  induction acts generalizing e with
  | nil => exact h
  | cons t ts ih => exact ih _ (commitAction_allIn_mono session e t.1 t.2 a h)

/-- With no all-in set supplied, `buildPostflopOrder` is a permutation of
the un-folded seats (rotation moves the button from front to back). -/
theorem buildPostflopOrder_none_perm (ids folded : List String) :
    (buildPostflopOrder ids folded none).Perm
      (ids.filter (fun id => !(folded.contains id))) := by
  unfold buildPostflopOrder
  have hk : (fun id => !(folded.contains id) &&
      !(match (none : Option (List String)) with
        | some s => s.contains id
        | none => false)) = (fun id => !(folded.contains id)) := by
    funext id
    simp
  rw [hk]
  have heq : (ids.take 1).filter (fun id => !(folded.contains id)) ++
      (ids.drop 1).filter (fun id => !(folded.contains id)) =
      ids.filter (fun id => !(folded.contains id)) := by
    rw [← List.filter_append, List.take_append_drop]
  exact List.perm_append_comm.trans (heq ▸ List.Perm.refl _)

/-- The head of an append is the head of a nonempty left part. -/
theorem head?_append_of_head? (l l2 : List String) (a : String) (h : l.head? = some a) :
    (l ++ l2).head? = some a := by
  cases l with
  | nil => simp at h
  | cons x t => simpa using h

/-! ## Claims -/

/-- C3 counterexample: the pot is not non-decreasing for every amount
argument: on the reachable three-seat state where BTN has called (pot 25,
SB's contribution 5), SB raising to 3 shrinks the pot to 23, without any
undo. -/
theorem c3_counterexample :
    ¬(btnCalled3.state.pot ≤
      (commitAction session3 btnCalled3 .raise (some 3)).state.pot) := by
  decide

/-- C3 (amended): the pot never decreases through `commitAction` for fold,
check, call, all-in and straddle with any amount, and for bet/raise
whenever the effective amount (the argument, defaulting to the current
bet) is at least the actor's previous contribution; only a bet/raise below
the actor's own previous contribution — an action the caller never offers —
can shrink it, and `goBack` aside, nothing else can. -/
theorem c3_pot_monotone (session : SessionConfig) (e : Engine) (type : ActionType)
    (amount : Option Int)
    (h : ∀ a, (activeOrder session e.state e.preflopOrder).get?
        e.state.currentActorIdx = some a →
      type = .bet ∨ type = .raise →
      recGet e.state.contributions a ≤ amount.getD e.state.currentBet) :
    e.state.pot ≤ (commitAction session e type amount).state.pot := by
  unfold commitAction
  by_cases hs : (type == ActionType.straddle) = true
  · simp only [hs, if_true]
    exact commitStraddleState_pot_mono session e.preflopOrder e.currentStraddle e.state
  · simp only [hs, Bool.false_eq_true, if_false]
    cases hg : (activeOrder session e.state e.preflopOrder).get?
        e.state.currentActorIdx with
    | none =>
      unfold commitActionState
      simp only [hg]
      exact le_refl _
    | some a =>
      by_cases hb : (a == "") = true
      · unfold commitActionState
        simp only [hg, hb, if_true]
        exact le_refl _
      · have hne : a ≠ "" := by
          intro hcon
          subst hcon
          simp at hb
        rw [commitActionState_of_actor session e.preflopOrder e.state type amount a hg hne]
        have hmono : e.state.pot ≤
            (commitActionPre session e.preflopOrder e.state type amount a).pot :=
          financialStep_pot_mono session e.state type amount a (h a hg)
        by_cases hso : commitActionStreetOver session e.preflopOrder e.state type
            amount a = true
        · rw [if_pos hso]
          rw [(resolveStreetEnd_keeps session
            (commitActionPre session e.preflopOrder e.state type amount a)
            e.state.currentStreet).1]
          exact hmono
        · rw [if_neg hso]
          exact hmono

/-- Witness for the amended C3: BTN calls first-in at the three-seat table
(the bet/raise side condition is vacuous for a call). -/
theorem c3_pot_monotone_witness :
    (∀ a, (activeOrder session3 engine3.state engine3.preflopOrder).get?
        engine3.state.currentActorIdx = some a →
      ActionType.call = ActionType.bet ∨ ActionType.call = ActionType.raise →
      recGet engine3.state.contributions a ≤
        (none : Option Int).getD engine3.state.currentBet) ∧
    engine3.state.pot ≤ (commitAction session3 engine3 .call none).state.pot :=
  ⟨fun _ _ hbr => absurd hbr (by decide),
    c3_pot_monotone session3 engine3 .call none (fun _ _ hbr => absurd hbr (by decide))⟩

/-- C1: for every engine state (in particular every reachable one) and every
action kind (fold, check, call, bet, raise, allin, straddle) with any amount
argument, performing `commitAction` and then `goBack` restores the pot, the
contributions map, the acting index, the folded set, the all-in set and the
closing-player id to exactly their pre-action values: the full snapshot
pushed before the mutation is popped back wholesale. -/
theorem c1_commitAction_goBack_roundtrip (session : SessionConfig) (e : Engine)
    (type : ActionType) (amount : Option Int) :
    (goBack (commitAction session e type amount)).state.pot = e.state.pot ∧
    (goBack (commitAction session e type amount)).state.contributions =
      e.state.contributions ∧
    (goBack (commitAction session e type amount)).state.currentActorIdx =
      e.state.currentActorIdx ∧
    (goBack (commitAction session e type amount)).state.foldedIds = e.state.foldedIds ∧
    (goBack (commitAction session e type amount)).state.allInIds = e.state.allInIds ∧
    (goBack (commitAction session e type amount)).state.closingPlayerId =
      e.state.closingPlayerId := by
  refine ⟨?_, ?_, ?_, ?_, ?_, ?_⟩ <;> rw [goBack_commitAction_state]

/-- C8: for every seat list with 2 ≤ N ≤ 9 and no folded, all-in or
straddling seats, `buildPreflopOrder` returns each seat exactly once with
the big blind last, and `buildPostflopOrder` returns each seat exactly once
with the button last. -/
theorem c8_order_builder_guarantees (ids : List String)
    (h2 : 2 ≤ ids.length) (h9 : ids.length ≤ 9) :
    (buildPreflopOrder ids 0).Perm ids ∧
    (buildPreflopOrder ids 0).getLast? = some (bigBlindId ids) ∧
    (buildPostflopOrder ids [] (some [])).Perm ids ∧
    (buildPostflopOrder ids [] (some [])).getLast? = some (ids.getD 0 "") := by
  match ids, h2 with
  | a :: b :: t, _ =>
    have hpost : buildPostflopOrder (a :: b :: t) [] (some []) = (b :: t) ++ [a] := by
      simp [buildPostflopOrder]
    match t with
    | [] =>
      refine ⟨?_, ?_, ?_, ?_⟩
      · simp [buildPreflopOrder]
      · simp [buildPreflopOrder, bigBlindId]
      · rw [hpost]; exact List.perm_append_comm.trans (by rfl)
      · rw [hpost]; simp
    | c :: t' =>
      have hpre : buildPreflopOrder (a :: b :: c :: t') 0 = t' ++ [a, b, c] := by
        simp [buildPreflopOrder]
      have hbb : bigBlindId (a :: b :: c :: t') = c := by
        simp [bigBlindId]
      refine ⟨?_, ?_, ?_, ?_⟩
      · rw [hpre]
        exact List.perm_append_comm.trans (by rfl)
      · rw [hpre, hbb]; simp
      · rw [hpost]; exact List.perm_append_comm.trans (by rfl)
      · rw [hpost, List.getLast?_concat]; rfl

/-- C2 counterexample: the claim that bet/raise sets the bet level to
`max(currentBet, amount)` fails on a reachable state with a positive
amount: at the three-seat table before any action (current bet 10, BTN to
act with contribution 0), a raise to 3 makes the bet level 3, not
`max(10, 3) = 10`. -/
theorem c2_counterexample :
    ¬((commitAction session3 engine3 .raise (some 3)).state.currentBet =
      max engine3.state.currentBet 3) := by
  decide

/-- C2 (amended): for every state with a defined current actor and every
positive amount, `commitAction` with kind bet or raise changes the pot by
exactly the amount minus the actor's previous contribution, and — unless
the action ends the street and play moves to the next street's board-input
phase, which resets them — sets the actor's contribution and the bet level
to exactly the given amount (which equals `max(currentBet, amount)`
precisely when the amount is at least the previous bet level). -/
theorem c2_bet_raise_accounting (session : SessionConfig) (e : Engine)
    (type : ActionType) (amt : Int) (a : String)
    (ht : type = .bet ∨ type = .raise)
    (ha : (activeOrder session e.state e.preflopOrder).get? e.state.currentActorIdx =
      some a)
    (hne : a ≠ "") (hpos : 0 < amt) :
    (commitAction session e type (some amt)).state.pot =
      e.state.pot + (amt - recGet e.state.contributions a) ∧
    ((commitAction session e type (some amt)).state.phase ≠ .boardInput →
      recGet (commitAction session e type (some amt)).state.contributions a = amt ∧
      (commitAction session e type (some amt)).state.currentBet = amt) := by
  have hs : (type == ActionType.straddle) = false := by
    rcases ht with rfl | rfl <;> rfl
  have hca : (commitAction session e type (some amt)).state =
      commitActionState session e.preflopOrder e.state type (some amt) := by
    unfold commitAction
    simp only [hs, Bool.false_eq_true, if_false]
  rw [hca, commitActionState_of_actor session e.preflopOrder e.state type (some amt) a
    ha hne]
  have hpre_pot : (commitActionPre session e.preflopOrder e.state type (some amt) a).pot =
      e.state.pot + (amt - recGet e.state.contributions a) := by
    rcases ht with rfl | rfl <;> rfl
  have hpre_contrib :
      (commitActionPre session e.preflopOrder e.state type (some amt) a).contributions =
      recSet e.state.contributions a amt := by
    rcases ht with rfl | rfl <;> rfl
  have hpre_bet :
      (commitActionPre session e.preflopOrder e.state type (some amt) a).currentBet =
      amt := by
    rcases ht with rfl | rfl <;> rfl
  by_cases hso : commitActionStreetOver session e.preflopOrder e.state type (some amt) a =
    true
  · rw [if_pos hso]
    have hk := resolveStreetEnd_keeps session
      (commitActionPre session e.preflopOrder e.state type (some amt) a)
      e.state.currentStreet
    refine ⟨hk.1.trans hpre_pot, fun hph => ?_⟩
    obtain ⟨hc, hb⟩ := hk.2.2.2 hph
    rw [hc, hb, hpre_contrib, hpre_bet]
    exact ⟨recGet_recSet_self _ _ _, rfl⟩
  · rw [if_neg hso]
    refine ⟨hpre_pot, fun _ => ?_⟩
    rw [hpre_contrib, hpre_bet]
    exact ⟨recGet_recSet_self _ _ _, rfl⟩

/-- Witness for the amended C2: BTN raises to 30 first-in at the three-seat
table. -/
theorem c2_bet_raise_accounting_witness :
    ((ActionType.raise = ActionType.bet ∨ ActionType.raise = ActionType.raise) ∧
      (activeOrder session3 engine3.state engine3.preflopOrder).get?
        engine3.state.currentActorIdx = some "btn" ∧
      "btn" ≠ "" ∧ (0 : Int) < 30) ∧
    ((commitAction session3 engine3 .raise (some 30)).state.pot =
        engine3.state.pot + (30 - recGet engine3.state.contributions "btn") ∧
      ((commitAction session3 engine3 .raise (some 30)).state.phase ≠ .boardInput →
        recGet (commitAction session3 engine3 .raise (some 30)).state.contributions
          "btn" = 30 ∧
        (commitAction session3 engine3 .raise (some 30)).state.currentBet = 30)) :=
  ⟨⟨by decide, by decide, by decide, by decide⟩,
    c2_bet_raise_accounting session3 engine3 .raise 30 "btn" (by decide) (by decide)
      (by decide) (by decide)⟩

/-- C5 counterexample: all-in does not apply "the same pot and contribution
accounting as bet/raise": on the reachable three-seat state where BTN has
called (pot 25) and SB has contributed 5, SB going all-in for a positive
amount of 3 leaves the pot at 25, while the bet/raise accounting
`pot += target − previous contribution` would give 23. -/
theorem c5_counterexample :
    ¬((commitAction session3 btnCalled3 .allin (some 3)).state.pot =
      btnCalled3.state.pot + ((3 : Int) - recGet btnCalled3.state.contributions "sb")) := by
  decide

/-- C5 (amended): for every state with a defined current actor, all-in uses
the given amount when positive, otherwise the actor's stack, falling back
to the current bet when the stack is unset or zero; unlike bet/raise, the
pot grows by `max(0, target − previous contribution)` and the bet level
becomes `max(currentBet, target)` (coinciding with bet/raise accounting
exactly when the target is at least the previous contribution and at least
the current bet); the actor joins the all-in set, and every acting order
computed for any street during the rest of the hand excludes the actor. -/
theorem c5_allin_accounting_and_exclusion (session : SessionConfig) (e : Engine)
    (amount : Option Int) (a : String)
    (ha : (activeOrder session e.state e.preflopOrder).get? e.state.currentActorIdx =
      some a)
    (hne : a ≠ "") :
    (commitAction session e .allin amount).state.pot =
      e.state.pot + max 0 ((match amount with
        | some m => if 0 < m then m
            else if 0 < playerStackOf session a then playerStackOf session a
              else e.state.currentBet
        | none => if 0 < playerStackOf session a then playerStackOf session a
            else e.state.currentBet) - recGet e.state.contributions a) ∧
    ((commitAction session e .allin amount).state.phase ≠ .boardInput →
      recGet (commitAction session e .allin amount).state.contributions a =
        (match amount with
        | some m => if 0 < m then m
            else if 0 < playerStackOf session a then playerStackOf session a
              else e.state.currentBet
        | none => if 0 < playerStackOf session a then playerStackOf session a
            else e.state.currentBet) ∧
      (commitAction session e .allin amount).state.currentBet =
        max e.state.currentBet (match amount with
        | some m => if 0 < m then m
            else if 0 < playerStackOf session a then playerStackOf session a
              else e.state.currentBet
        | none => if 0 < playerStackOf session a then playerStackOf session a
            else e.state.currentBet)) ∧
    a ∈ (commitAction session e .allin amount).state.allInIds ∧
    (∀ acts o, a ∉ activeOrder session
      (runActions session (commitAction session e .allin amount) acts).state o) := by
  have hca : (commitAction session e .allin amount).state =
      commitActionState session e.preflopOrder e.state .allin amount := by
    unfold commitAction
    simp
  rw [hca, commitActionState_of_actor session e.preflopOrder e.state .allin amount a
    ha hne]
  have hmax : ∀ (X : Int), (if e.state.currentBet < X then X else e.state.currentBet) =
      max e.state.currentBet X := by
    intro X
    split <;> omega
  have hallin : ∀ s o, a ∈ HandFlowState.allInIds s → a ∉ activeOrder session s o :=
    fun s o hmem => not_mem_activeOrder_of_allIn session s o a hmem
  by_cases hso : commitActionStreetOver session e.preflopOrder e.state .allin amount a =
    true
  · rw [if_pos hso]
    have hk := resolveStreetEnd_keeps session
      (commitActionPre session e.preflopOrder e.state .allin amount a)
      e.state.currentStreet
    have hmem : a ∈ (resolveStreetEnd session
        (commitActionPre session e.preflopOrder e.state .allin amount a)
        e.state.currentStreet).allInIds := by
      rw [hk.2.2.1]
      exact mem_setAdd_self _ _
    refine ⟨hk.1.trans rfl, fun hph => ?_, hmem, ?_⟩
    · obtain ⟨hc, hb⟩ := hk.2.2.2 hph
      rw [hc, hb]
      exact ⟨recGet_recSet_self _ _ _, hmax _⟩
    · intro acts o
      refine hallin _ _ (runActions_allIn_mono session _ acts a ?_)
      rw [hca, commitActionState_of_actor session e.preflopOrder e.state .allin amount a
        ha hne, if_pos hso]
      exact hmem
  · rw [if_neg hso]
    have hmem : a ∈
        (commitActionPre session e.preflopOrder e.state .allin amount a).allInIds :=
      mem_setAdd_self _ _
    refine ⟨rfl, fun _ => ⟨recGet_recSet_self _ _ _, hmax _⟩, hmem, ?_⟩
    intro acts o
    refine hallin _ _ (runActions_allIn_mono session _ acts a ?_)
    rw [hca, commitActionState_of_actor session e.preflopOrder e.state .allin amount a
      ha hne, if_neg hso]
    exact hmem

/-- Witness for the amended C5: BTN moves all-in first-in (amount
unspecified, stack 1000) at the three-seat table. -/
theorem c5_allin_accounting_and_exclusion_witness :
    ((activeOrder session3 engine3.state engine3.preflopOrder).get?
        engine3.state.currentActorIdx = some "btn" ∧ "btn" ≠ "") ∧
    ((commitAction session3 engine3 .allin none).state.pot =
      engine3.state.pot +
        max 0 ((1000 : Int) - recGet engine3.state.contributions "btn") ∧
    ((commitAction session3 engine3 .allin none).state.phase ≠ .boardInput →
      recGet (commitAction session3 engine3 .allin none).state.contributions "btn" =
        (1000 : Int) ∧
      (commitAction session3 engine3 .allin none).state.currentBet =
        max engine3.state.currentBet (1000 : Int)) ∧
    "btn" ∈ (commitAction session3 engine3 .allin none).state.allInIds ∧
    (∀ acts o, "btn" ∉ activeOrder session3
      (runActions session3 (commitAction session3 engine3 .allin none) acts).state o)) :=
  ⟨⟨by decide, by decide⟩,
    c5_allin_accounting_and_exclusion session3 engine3 none "btn" (by decide) (by decide)⟩

/-- C4: in a preflop state with no folded or all-in seats in which the
player due to act first (the head of the preflop order) straddles, the new
bet level and the straddler's contribution become exactly twice the
previous current bet, the preflop order is re-derived to restart
immediately after the straddler with the straddler as the new last-to-act
and new closing player, and the acting index restarts at the head; since
these hypotheses hold again after a straddle, each subsequent straddle
re-derives the order in the same way. -/
theorem c4_straddle_rederivation (session : SessionConfig) (e : Engine)
    (amount : Option Int) (a : String) (rest : List String)
    (h1 : e.state.currentStreet = .preflop) (h2 : e.state.foldedIds = [])
    (h3 : e.state.allInIds = []) (h4 : e.state.currentActorIdx = 0)
    (h5 : e.preflopOrder = a :: rest) (h6 : a ≠ "") :
    (commitAction session e .straddle amount).state.currentBet =
      e.state.currentBet * 2 ∧
    recGet (commitAction session e .straddle amount).state.contributions a =
      e.state.currentBet * 2 ∧
    (commitAction session e .straddle amount).preflopOrder = rest ++ [a] ∧
    (commitAction session e .straddle amount).preflopOrder.getLast? = some a ∧
    (commitAction session e .straddle amount).state.closingPlayerId = some a ∧
    (commitAction session e .straddle amount).state.currentActorIdx = 0 := by
  have hspec := commitStraddleState_spec session e.currentStraddle e.state a rest
    h1 h2 h3 h4 h6
  rw [commitAction_straddle_eq, h5, hspec]
  refine ⟨rfl, ?_, rfl, ?_, rfl, rfl⟩
  · exact recGet_recSet_self _ _ _
  · rw [List.getLast?_concat]

/-- Witness for C4: UTG straddles first-in at the four-seat table. -/
theorem c4_straddle_rederivation_witness :
    (engine4.state.currentStreet = .preflop ∧ engine4.state.foldedIds = [] ∧
      engine4.state.allInIds = [] ∧ engine4.state.currentActorIdx = 0 ∧
      engine4.preflopOrder = "utg" :: ["btn", "sb", "bb"] ∧ "utg" ≠ "") ∧
    ((commitAction session4 engine4 .straddle none).state.currentBet =
        engine4.state.currentBet * 2 ∧
      recGet (commitAction session4 engine4 .straddle none).state.contributions "utg" =
        engine4.state.currentBet * 2 ∧
      (commitAction session4 engine4 .straddle none).preflopOrder =
        ["btn", "sb", "bb"] ++ ["utg"] ∧
      (commitAction session4 engine4 .straddle none).preflopOrder.getLast? =
        some "utg" ∧
      (commitAction session4 engine4 .straddle none).state.closingPlayerId =
        some "utg" ∧
      (commitAction session4 engine4 .straddle none).state.currentActorIdx = 0) :=
  ⟨⟨by decide, by decide, by decide, by decide, by decide, by decide⟩,
    c4_straddle_rederivation session4 engine4 none "utg" ["btn", "sb", "bb"]
      (by decide) (by decide) (by decide) (by decide) (by decide) (by decide)⟩

/-- C6: on the six-seat table during preflop, after UTG moves all-in and
HJ, CO, BTN and SB fold in turn, the phase is still `action` and the big
blind still faces a strictly positive amount to call — the street does not
end prematurely before the big blind has acted. -/
theorem c6_six_seat_no_premature_street_end :
    sixAfterFourFolds.state.phase = Phase.action ∧
    0 < callAmount sixAfterFourFolds.state "bb" := by
  decide

/-- C10: after a first-in straddle followed by `goBack`, the snapshot
fields of the engine state (pot, contributions, bet level, closing player,
action log) are restored to their pre-straddle values (indeed the whole
`HandFlowState` is), but the re-derived preflop order and the recorded
straddle amount live outside the snapshot and are not reverted: the
straddler remains last in the order used by subsequent turn
computations. -/
theorem c10_straddle_goBack_frame (session : SessionConfig) (e : Engine)
    (amount : Option Int) (a : String) (rest : List String)
    (h1 : e.state.currentStreet = .preflop) (h2 : e.state.foldedIds = [])
    (h3 : e.state.allInIds = []) (h4 : e.state.currentActorIdx = 0)
    (h5 : e.preflopOrder = a :: rest) (h6 : a ≠ "") :
    (goBack (commitAction session e .straddle amount)).state = e.state ∧
    (goBack (commitAction session e .straddle amount)).preflopOrder =
      (commitAction session e .straddle amount).preflopOrder ∧
    (goBack (commitAction session e .straddle amount)).currentStraddle =
      (commitAction session e .straddle amount).currentStraddle ∧
    (goBack (commitAction session e .straddle amount)).preflopOrder = rest ++ [a] ∧
    (goBack (commitAction session e .straddle amount)).currentStraddle =
      e.state.currentBet * 2 ∧
    (goBack (commitAction session e .straddle amount)).preflopOrder.getLast? =
      some a := by
  have hspec := commitStraddleState_spec session e.currentStraddle e.state a rest
    h1 h2 h3 h4 h6
  have hp := goBack_preflopOrder (commitAction session e .straddle amount)
  have hc := goBack_currentStraddle (commitAction session e .straddle amount)
  refine ⟨goBack_commitAction_state session e .straddle amount, hp, hc, ?_, ?_, ?_⟩
  · rw [hp, commitAction_straddle_eq, h5, hspec]
  · rw [hc, commitAction_straddle_eq, h5, hspec]
  · rw [hp, commitAction_straddle_eq, h5, hspec, List.getLast?_concat]

/-- Witness for C10: UTG straddles first-in at the four-seat table, then
one `goBack`. -/
theorem c10_straddle_goBack_frame_witness :
    (engine4.state.currentStreet = .preflop ∧ engine4.state.foldedIds = [] ∧
      engine4.state.allInIds = [] ∧ engine4.state.currentActorIdx = 0 ∧
      engine4.preflopOrder = "utg" :: ["btn", "sb", "bb"] ∧ "utg" ≠ "") ∧
    ((goBack (commitAction session4 engine4 .straddle none)).state = engine4.state ∧
      (goBack (commitAction session4 engine4 .straddle none)).preflopOrder =
        (commitAction session4 engine4 .straddle none).preflopOrder ∧
      (goBack (commitAction session4 engine4 .straddle none)).currentStraddle =
        (commitAction session4 engine4 .straddle none).currentStraddle ∧
      (goBack (commitAction session4 engine4 .straddle none)).preflopOrder =
        ["btn", "sb", "bb"] ++ ["utg"] ∧
      (goBack (commitAction session4 engine4 .straddle none)).currentStraddle =
        engine4.state.currentBet * 2 ∧
      (goBack (commitAction session4 engine4 .straddle none)).preflopOrder.getLast? =
        some "utg") :=
  ⟨⟨by decide, by decide, by decide, by decide, by decide, by decide⟩,
    c10_straddle_goBack_frame session4 engine4 none "utg" ["btn", "sb", "bb"]
      (by decide) (by decide) (by decide) (by decide) (by decide) (by decide)⟩

/-- C9 counterexample: a currently-invalid request is not always a no-op.
On the reachable four-seat state where UTG has already called (so the
straddle window is closed and `canStraddle` reports false), a straddle
request still mutates the engine state (BTN is forced to 20 and the pot
grows) instead of returning it unchanged. -/
theorem c9_counterexample :
    canStraddle session4 utgCalled4 = false ∧
    ¬((commitAction session4 utgCalled4 .straddle none).state = utgCalled4.state) := by
  decide

/-- C9 (amended): `commitAction` returns the engine state unchanged (never
raising) exactly when no current actor is defined — the active order has no
entry at the acting index, or a falsy (empty) id there — for every action
kind including straddle; other currently-invalid requests (such as a
straddle outside its legal window, or a check facing a bet) are applied
as-is rather than rejected, as the caller is expected to offer only legal
actions. -/
theorem c9_no_actor_noop (session : SessionConfig) (e : Engine) (type : ActionType)
    (amount : Option Int)
    (h : ((activeOrder session e.state e.preflopOrder).get?
      e.state.currentActorIdx).getD "" = "") :
    (commitAction session e type amount).state = e.state := by
  unfold commitAction
  by_cases hs : (type == ActionType.straddle) = true
  · simp only [hs, if_true]
    unfold commitStraddleState
    cases hg : (activeOrder session e.state e.preflopOrder).get?
        e.state.currentActorIdx with
    | none => simp only [hg]
    | some x =>
      rw [hg] at h
      simp at h
      subst h
      simp only [hg]
      simp
  · simp only [hs, Bool.false_eq_true, if_false]
    unfold commitActionState
    cases hg : (activeOrder session e.state e.preflopOrder).get?
        e.state.currentActorIdx with
    | none => simp only [hg]
    | some x =>
      rw [hg] at h
      simp at h
      subst h
      simp only [hg]
      simp

/-- Witness for the amended C9: the acting index 5 is past the end of the
three-seat active order, so a fold request leaves the state unchanged. -/
theorem c9_no_actor_noop_witness :
    (((activeOrder session3 noActorEngine.state noActorEngine.preflopOrder).get?
        noActorEngine.state.currentActorIdx).getD "" = "") ∧
    (commitAction session3 noActorEngine .fold none).state = noActorEngine.state :=
  ⟨by decide, c9_no_actor_noop session3 noActorEngine .fold none (by decide)⟩

/-- C7: whenever the river street ends with at least two live (non-folded)
players, the phase becomes showdown and the showdown queue is the postflop
rotation (small-blind first) of the live players rotated so that the
chronologically last aggressor across the four streets (restricted to
still-live seats) appears first; when no such aggressor exists the queue
is the unmodified postflop rotation. -/
theorem c7_showdown_queue (session : SessionConfig) (ns : HandFlowState)
    (hlive : 2 ≤ (session.playerIds.filter
      (fun id => !(ns.foldedIds.contains id))).length) :
    (resolveStreetEnd session ns .river).phase = .showdown ∧
    (resolveStreetEnd session ns .river).showdownQueue =
      buildShowdownQueue ns.streets session.playerIds ns.foldedIds ∧
    (lastAggressorScan ns.streets ns.foldedIds = none →
      buildShowdownQueue ns.streets session.playerIds ns.foldedIds =
        buildPostflopOrder session.playerIds ns.foldedIds none) ∧
    (∀ la, lastAggressorScan ns.streets ns.foldedIds = some la → la ≠ "" →
      la ∈ buildPostflopOrder session.playerIds ns.foldedIds none →
      buildShowdownQueue ns.streets session.playerIds ns.foldedIds =
        (buildPostflopOrder session.playerIds ns.foldedIds none).rotate
          ((buildPostflopOrder session.playerIds ns.foldedIds none).indexOf la) ∧
      (buildShowdownQueue ns.streets session.playerIds ns.foldedIds).head? =
        some la) := by
  have hconv : (fun id => !(ns.foldedIds.contains id)) =
      (fun id => !decide (id ∈ ns.foldedIds)) := by
    funext id
    simp
  have hlive' : 2 ≤ (session.playerIds.filter
      (fun id => !decide (id ∈ ns.foldedIds))).length := by
    rw [← hconv]
    exact hlive
  have h1 : ¬((List.filter (fun id => !decide (id ∈ ns.foldedIds))
      session.playerIds).length ≤ 1) := by omega
  have hlen : 2 ≤ (buildPostflopOrder session.playerIds ns.foldedIds none).length := by
    rw [(buildPostflopOrder_none_perm session.playerIds ns.foldedIds).length_eq, hconv]
    exact hlive'
  have hnotle : ¬((buildPostflopOrder session.playerIds ns.foldedIds none).length ≤ 1) := by
    omega
  have hres : resolveStreetEnd session ns .river =
      { ns with
        phase := .showdown
        showdownQueue := buildShowdownQueue ns.streets session.playerIds ns.foldedIds
        showdownRecords := [] } := by
    simp [resolveStreetEnd, h1, STREETS]
  refine ⟨by rw [hres], by rw [hres], ?_, ?_⟩
  · intro hnone
    unfold buildShowdownQueue
    simp only [hnone]
    rw [if_neg hnotle]
  · intro la hla hne hmem
    have hbeq : (la == "") = false := beq_empty_false_of_ne la hne
    have hcont : (buildPostflopOrder session.playerIds ns.foldedIds none).contains la =
        true := by
      simp [hmem]
    have hqueue : buildShowdownQueue ns.streets session.playerIds ns.foldedIds =
        (buildPostflopOrder session.playerIds ns.foldedIds none).drop
          ((buildPostflopOrder session.playerIds ns.foldedIds none).indexOf la) ++
        (buildPostflopOrder session.playerIds ns.foldedIds none).take
          ((buildPostflopOrder session.playerIds ns.foldedIds none).indexOf la) := by
      unfold buildShowdownQueue
      simp only [hla]
      rw [if_neg hnotle]
      simp only [hbeq, hcont, Bool.not_true, Bool.or_false, Bool.false_eq_true, if_false]
    constructor
    · rw [hqueue, List.rotate_eq_drop_append_take List.indexOf_le_length]
    · rw [hqueue]
      refine head?_append_of_head? _ _ la ?_
      rw [List.head?_drop, ← List.get?_eq_getElem?]
      exact List.indexOf_get? hmem

/-- Witness for C7: the spec's river example on the three-seat fixture —
SB bets 20, BB and BTN call, so SB is the last aggressor and the queue is
`[sb, bb, btn]`. -/
theorem c7_showdown_queue_witness :
    (2 ≤ (session3.playerIds.filter
      (fun id => !(riverState3.foldedIds.contains id))).length) ∧
    ((resolveStreetEnd session3 riverState3 .river).phase = .showdown ∧
    (resolveStreetEnd session3 riverState3 .river).showdownQueue =
      buildShowdownQueue riverState3.streets session3.playerIds riverState3.foldedIds ∧
    (lastAggressorScan riverState3.streets riverState3.foldedIds = none →
      buildShowdownQueue riverState3.streets session3.playerIds riverState3.foldedIds =
        buildPostflopOrder session3.playerIds riverState3.foldedIds none) ∧
    (∀ la, lastAggressorScan riverState3.streets riverState3.foldedIds = some la →
      la ≠ "" →
      la ∈ buildPostflopOrder session3.playerIds riverState3.foldedIds none →
      buildShowdownQueue riverState3.streets session3.playerIds riverState3.foldedIds =
        (buildPostflopOrder session3.playerIds riverState3.foldedIds none).rotate
          ((buildPostflopOrder session3.playerIds riverState3.foldedIds none).indexOf
            la) ∧
      (buildShowdownQueue riverState3.streets session3.playerIds
        riverState3.foldedIds).head? = some la)) :=
  ⟨by decide, c7_showdown_queue session3 riverState3 (by decide)⟩

/-- Witness for C8 at the three-seat table `["btn", "sb", "bb"]`. -/
theorem c8_order_builder_guarantees_witness :
    (2 ≤ (["btn", "sb", "bb"] : List String).length ∧
      (["btn", "sb", "bb"] : List String).length ≤ 9) ∧
    ((buildPreflopOrder ["btn", "sb", "bb"] 0).Perm ["btn", "sb", "bb"] ∧
      (buildPreflopOrder ["btn", "sb", "bb"] 0).getLast? =
        some (bigBlindId ["btn", "sb", "bb"]) ∧
      (buildPostflopOrder ["btn", "sb", "bb"] [] (some [])).Perm ["btn", "sb", "bb"] ∧
      (buildPostflopOrder ["btn", "sb", "bb"] [] (some [])).getLast? =
        some ((["btn", "sb", "bb"] : List String).getD 0 "")) :=
  ⟨by decide, c8_order_builder_guarantees ["btn", "sb", "bb"] (by decide) (by decide)⟩

end HandFlow
